import Mathlib

/-!
Verification of the Fibonacci CLI program in `src/examples/example.c`.

The program defines `int fibonacci(int n)` (iterative loop) and a `main`
that prints a prompt, reads one integer with `scanf("%d", &n)`, rejects
non-numeric input and values outside `0 ≤ n ≤ 46`, and otherwise prints
the index and the computed Fibonacci value.

C `int` arithmetic is embedded as unbounded `Int`; for the inputs the
program accepts we prove separately that every intermediate sum fits in a
32-bit signed integer, so the unbounded embedding agrees with the C
semantics on that range.
-/

namespace AiCli

/-- The body of the `for (int i = 2; i <= n; i++)` loop of `fibonacci`,
run `k` times on the pair `(a, b)`: each step performs
`c = a + b; a = b; b = c`. -/
def fibIter : Nat → Int × Int → Int × Int
  | 0, ab => ab
  | k + 1, (a, b) => fibIter k (b, a + b)

/-- `int fibonacci(int n)` from `src/examples/example.c`, lines 8-17:
`if (n <= 1) return n;` then `a = 0, b = 1`, loop `i = 2 .. n`
(that is, `n - 1` iterations), `return b`. -/
def fibonacci (n : Int) : Int :=
  if n ≤ 1 then n
  else (fibIter (n - 1).toNat (0, 1)).2

/-- Loop body instrumented with an iteration counter: returns the final
pair together with the number of executed iterations. -/
def fibIterC : Nat → Int × Int → (Int × Int) × Nat
  | 0, ab => (ab, 0)
  | k + 1, (a, b) =>
      let r := fibIterC k (b, a + b)
      (r.1, r.2 + 1)

/-- `fibonacci` instrumented with the number of loop iterations it
executes: `(result, iteration count)`. -/
def fibonacciCost (n : Int) : Int × Nat :=
  if n ≤ 1 then (n, 0)
  else ((fibIterC (n - 1).toNat (0, 1)).1.2, (fibIterC (n - 1).toNat (0, 1)).2)

/-- `INT_MAX` for 32-bit signed `int`. -/
def INT_MAX : Int := 2147483647

/-- `INT_MIN` for 32-bit signed `int`. -/
def INT_MIN : Int := -2147483648

/-- Checks that every intermediate sum `c = a + b` computed during `k`
iterations of the loop, starting from the pair `ab`, lies in the 32-bit
signed range. -/
def sumsFit : Nat → Int × Int → Bool
  | 0, _ => true
  | k + 1, (a, b) => decide (INT_MIN ≤ a + b ∧ a + b ≤ INT_MAX) && sumsFit k (b, a + b)

/-- Numeric value of a decimal digit character. -/
def digitVal (c : Char) : Nat := c.toNat - 48

/-- Accumulates the value of the longest digit run at the head of the
list, starting from accumulator `acc`. -/
def digitsVal : List Char → Nat → Nat
  | [], acc => acc
  | c :: cs, acc => if c.isDigit then digitsVal cs (acc * 10 + digitVal c) else acc

/-- `scanf("%d", &n)` on the given input characters: skip leading
whitespace, accept an optional sign (`-` is code 45, `+` is code 43)
followed by at least one decimal digit, and return the parsed integer;
`none` when matching fails (the C call then returns a value other
than 1). -/
def scanfInt (cs : List Char) : Option Int :=
  match cs.dropWhile Char.isWhitespace with
  | [] => none
  | c :: rest =>
      if c.toNat = 45 then
        match rest with
        | d :: _ => if d.isDigit then some (-(digitsVal rest 0 : Int)) else none
        | [] => none
      else if c.toNat = 43 then
        match rest with
        | d :: _ => if d.isDigit then some ((digitsVal rest 0 : Int)) else none
        | [] => none
      else if c.isDigit then some ((digitsVal (c :: rest) 0 : Int))
      else none

/-- One line printed by the program: the prompt, one of the two error
messages, or the success line carrying the echoed index and the computed
value. -/
inductive OutLine where
  | prompt : OutLine
  | invalidInput : OutLine
  | outOfRange : OutLine
  | result : Int → Int → OutLine
deriving DecidableEq

/-- Is this printed line the success line? -/
def isResultLine : OutLine → Bool
  | .result _ _ => true
  | _ => false

/-- Is this printed line one of the two error messages? -/
def isErrorLine : OutLine → Bool
  | .invalidInput => true
  | .outOfRange => true
  | _ => false

/-- `main` from `src/examples/example.c`, lines 19-32, parameterised by
the function called on the success path: print the prompt, run
`scanf("%d", &n)` on the input, return `EXIT_FAILURE` (1) after the
`InvalidInput` message when parsing fails, return `EXIT_FAILURE` after
the `OutOfRange` message when `n < 0 || n > 46`, and otherwise print the
success line with `n` and `f n` and return 0. Result: (printed lines,
exit status). -/
def mainWith (f : Int → Int) (line : List Char) : List OutLine × Nat :=
  match scanfInt line with
  | none => ([.prompt, .invalidInput], 1)
  | some n =>
      if n < 0 ∨ 46 < n then ([.prompt, .outOfRange], 1)
      else ([.prompt, .result n (f n)], 0)

/-- The program: `main` with the success path calling `fibonacci`. -/
def progMain (line : List Char) : List OutLine × Nat :=
  mainWith fibonacci line

/-! ### Helper lemmas -/

/-- Running the loop `k` times from two consecutive Fibonacci values
yields the pair of consecutive Fibonacci values `k` places further on. -/
theorem fibIter_fib (k : Nat) : ∀ j : Nat,
    fibIter k ((Nat.fib j : Int), (Nat.fib (j + 1) : Int)) =
      ((Nat.fib (j + k) : Int), (Nat.fib (j + k + 1) : Int)) := by
  induction k with
  | zero => intro j; simp [fibIter]
  | succ k ih =>
      intro j
      have h : ((Nat.fib j : Int) + (Nat.fib (j + 1) : Int)) = (Nat.fib (j + 2) : Int) := by
        rw [Nat.fib_add_two]; push_cast; ring
      calc fibIter (k + 1) ((Nat.fib j : Int), (Nat.fib (j + 1) : Int))
          = fibIter k ((Nat.fib (j + 1) : Int), (Nat.fib j : Int) + (Nat.fib (j + 1) : Int)) := rfl
        _ = fibIter k ((Nat.fib (j + 1) : Int), (Nat.fib (j + 1 + 1) : Int)) := by
              rw [h]
        _ = ((Nat.fib (j + 1 + k) : Int), (Nat.fib (j + 1 + k + 1) : Int)) := ih (j + 1)
        _ = ((Nat.fib (j + (k + 1)) : Int), (Nat.fib (j + (k + 1) + 1) : Int)) := by
              ring_nf

/-- On every non-negative input the embedded `fibonacci` returns the
standard Fibonacci number. -/
theorem fibonacci_eq_fib (n : Int) (h : 0 ≤ n) : fibonacci n = Nat.fib n.toNat := by
  by_cases h1 : n ≤ 1
  · have : n = 0 ∨ n = 1 := by omega
    rcases this with h0 | h0 <;> subst h0 <;> simp [fibonacci]
  · have h2 : (2 : Int) ≤ n := by omega
    have hk : (n - 1).toNat = n.toNat - 1 := by omega
    have hstart : ((0 : Int), (1 : Int)) =
        ((Nat.fib 0 : Int), (Nat.fib (0 + 1) : Int)) := by simp
    have := fibIter_fib (n - 1).toNat 0
    simp only [Nat.zero_add] at this
    have hres : fibonacci n = (Nat.fib ((n - 1).toNat + 1) : Int) := by
      unfold fibonacci
      rw [if_neg h1, hstart, this]
    have harg : (n - 1).toNat + 1 = n.toNat := by omega
    rw [hres, harg]

/-- The instrumented loop computes the same pair as the plain loop, and
its iteration counter equals the number of iterations requested. -/
theorem fibIterC_eq (k : Nat) : ∀ ab : Int × Int, fibIterC k ab = (fibIter k ab, k) := by
  induction k with
  | zero => intro ab; rfl
  | succ k ih =>
      intro ab
      obtain ⟨a, b⟩ := ab
      simp [fibIterC, fibIter, ih]

/-- Running the loop `k` times from the initial pair `(0, 1)` yields the
`k`-th and `(k+1)`-st Fibonacci numbers. -/
theorem fibIter_zero_one (k : Nat) :
    fibIter k (0, 1) = ((Nat.fib k : Int), (Nat.fib (k + 1) : Int)) := by
  have h := fibIter_fib k 0
  simpa using h

/-- For every index up to 46, all intermediate sums fit in 32-bit signed
range and so does the result (checked by evaluation on each index). -/
theorem fib_no_overflow_nat : ∀ m : Nat, m < 47 →
    sumsFit (if (m : Int) ≤ 1 then 0 else ((m : Int) - 1).toNat) (0, 1) = true ∧
    INT_MIN ≤ fibonacci (m : Int) ∧ fibonacci (m : Int) ≤ INT_MAX := by decide

/-! ### Claim theorems -/

/-- C1: for every n with 0 ≤ n ≤ 46, `fibonacci n` (the iterative
recurrence of the source: (a, b) starts at (0, 1), each step sets
c = a + b, a = b, b = c, returning b when n ≥ 2 and n itself when n is
0 or 1) equals the standard Fibonacci number F(n). -/
theorem fibonacci_correct (n : Int) (h0 : 0 ≤ n) (h1 : n ≤ 46) :
    fibonacci n = Nat.fib n.toNat :=
  fibonacci_eq_fib n h0

theorem fibonacci_correct_witness :
    (0 : Int) ≤ 10 ∧ (10 : Int) ≤ 46 ∧ fibonacci 10 = Nat.fib (10 : Int).toNat :=
  ⟨by decide, by decide, fibonacci_correct 10 (by decide) (by decide)⟩

/-- C2: when the parsed integer n satisfies n < 0 or n > 46, the program
prints the OutOfRange error, exits with non-zero status, and performs no
Fibonacci computation: the run is independent of the function installed
on the success path, so `fibonacci` is never invoked. -/
theorem out_of_range_rejected (line : List Char) (n : Int)
    (hp : scanfInt line = some n) (hr : n < 0 ∨ 46 < n) :
    progMain line = ([.prompt, .outOfRange], 1) ∧ (progMain line).2 ≠ 0 ∧
      ∀ f g : Int → Int, mainWith f line = mainWith g line := by
  have key : ∀ f : Int → Int, mainWith f line = ([.prompt, .outOfRange], 1) := by
    intro f
    simp only [mainWith, hp]
    rw [if_pos hr]
  refine ⟨key fibonacci, ?_, fun f g => (key f).trans (key g).symm⟩
  unfold progMain
  rw [key fibonacci]
  decide

theorem out_of_range_rejected_witness :
    scanfInt [Char.ofNat 52, Char.ofNat 55] = some 47 ∧
      ((47 : Int) < 0 ∨ 46 < (47 : Int)) ∧
      progMain [Char.ofNat 52, Char.ofNat 55] = ([.prompt, .outOfRange], 1) :=
  ⟨by decide, by decide,
    (out_of_range_rejected [Char.ofNat 52, Char.ofNat 55] 47 (by decide) (by decide)).1⟩

/-- C3: when the input cannot be parsed as a base-10 integer (scanf
matching fails), the program prints the InvalidInput error, exits with
non-zero status, and never invokes `fibonacci`: the run is independent
of the function installed on the success path. -/
theorem invalid_input_rejected (line : List Char) (hp : scanfInt line = none) :
    progMain line = ([.prompt, .invalidInput], 1) ∧ (progMain line).2 ≠ 0 ∧
      ∀ f g : Int → Int, mainWith f line = mainWith g line := by
  have key : ∀ f : Int → Int, mainWith f line = ([.prompt, .invalidInput], 1) := by
    intro f
    simp only [mainWith, hp]
  refine ⟨key fibonacci, ?_, fun f g => (key f).trans (key g).symm⟩
  unfold progMain
  rw [key fibonacci]
  decide

theorem invalid_input_rejected_witness :
    scanfInt [Char.ofNat 97, Char.ofNat 98, Char.ofNat 99] = none ∧
      progMain [Char.ofNat 97, Char.ofNat 98, Char.ofNat 99] =
        ([.prompt, .invalidInput], 1) :=
  ⟨by decide,
    (invalid_input_rejected [Char.ofNat 97, Char.ofNat 98, Char.ofNat 99] (by decide)).1⟩

/-- C4: for every n with 0 ≤ n ≤ 46, every intermediate sum c = a + b of
the loop and the result fit in 32-bit signed range; the spot values
fibonacci(0)=0, fibonacci(1)=1, fibonacci(2)=1, fibonacci(10)=55 and
fibonacci(46)=1836311903 hold; and 46 is the largest such index, since
F(47) exceeds INT_MAX. -/
theorem fibonacci_no_overflow (n : Int) (h0 : 0 ≤ n) (h1 : n ≤ 46) :
    sumsFit (if n ≤ 1 then 0 else (n - 1).toNat) (0, 1) = true ∧
    INT_MIN ≤ fibonacci n ∧ fibonacci n ≤ INT_MAX ∧
    fibonacci 0 = 0 ∧ fibonacci 1 = 1 ∧ fibonacci 2 = 1 ∧
    fibonacci 10 = 55 ∧ fibonacci 46 = 1836311903 ∧
    INT_MAX < (Nat.fib 47 : Int) := by
  obtain ⟨m, rfl⟩ : ∃ m : Nat, n = (m : Int) := ⟨n.toNat, by omega⟩
  have hm : m < 47 := by omega
  have h := fib_no_overflow_nat m hm
  exact ⟨h.1, h.2.1, h.2.2, by decide, by decide, by decide, by decide, by decide, by decide⟩

theorem fibonacci_no_overflow_witness :
    (0 : Int) ≤ 10 ∧ (10 : Int) ≤ 46 ∧
      INT_MIN ≤ fibonacci 10 ∧ fibonacci 10 ≤ INT_MAX :=
  ⟨by decide, by decide, (fibonacci_no_overflow 10 (by decide) (by decide)).2.1,
    (fibonacci_no_overflow 10 (by decide) (by decide)).2.2.1⟩

/-- C5: when the input parses to n with 0 ≤ n ≤ 46, the program prints
exactly one success line carrying both n and fibonacci(n) (which equals
the standard Fibonacci number), and exits with status 0. -/
theorem success_prints_result (line : List Char) (n : Int)
    (hp : scanfInt line = some n) (h0 : 0 ≤ n) (h1 : n ≤ 46) :
    progMain line = ([.prompt, .result n (fibonacci n)], 0) ∧
      fibonacci n = Nat.fib n.toNat := by
  constructor
  · simp only [progMain, mainWith, hp]
    rw [if_neg]
    omega
  · exact fibonacci_eq_fib n h0

theorem success_prints_result_witness :
    progMain [Char.ofNat 49, Char.ofNat 48] = ([.prompt, .result 10 (fibonacci 10)], 0) :=
  (success_prints_result [Char.ofNat 49, Char.ofNat 48] 10 (by decide) (by decide)
    (by decide)).1

/-- C6: every run has an exclusive, terminal outcome: either exactly one
error line is printed, no result line, and the exit status is non-zero;
or exactly one result line with the correct value is printed, no error
line, and the exit status is 0. -/
theorem program_outcome_exclusive (line : List Char) :
    (((progMain line).1.filter isErrorLine).length = 1 ∧
      ((progMain line).1.filter isResultLine).length = 0 ∧
      (progMain line).2 ≠ 0) ∨
    (((progMain line).1.filter isResultLine).length = 1 ∧
      ((progMain line).1.filter isErrorLine).length = 0 ∧
      (progMain line).2 = 0 ∧
      ∃ n : Int, scanfInt line = some n ∧ 0 ≤ n ∧ n ≤ 46 ∧
        (progMain line).1 = [.prompt, .result n (fibonacci n)] ∧
        fibonacci n = Nat.fib n.toNat) := by
  cases hp : scanfInt line with
  | none =>
      left
      simp [progMain, mainWith, hp, isErrorLine, isResultLine, List.filter]
  | some n =>
      by_cases hr : n < 0 ∨ 46 < n
      · left
        simp [progMain, mainWith, hp, if_pos hr, isErrorLine, isResultLine, List.filter]
      · right
        have h0 : 0 ≤ n := by omega
        have h1 : n ≤ 46 := by omega
        refine ⟨?_, ?_, ?_, n, rfl, h0, h1, ?_, fibonacci_eq_fib n h0⟩ <;>
          simp [progMain, mainWith, hp, if_neg hr, isErrorLine, isResultLine, List.filter]

/-- C7: the program is deterministic and stateless: `fibonacci` is a
pure function (equal arguments give equal values) and two runs on equal
input lines produce equal printed output and equal exit status. -/
theorem program_deterministic (l1 l2 : List Char) (h : l1 = l2) :
    progMain l1 = progMain l2 ∧ ∀ n m : Int, n = m → fibonacci n = fibonacci m := by
  subst h
  exact ⟨rfl, fun n m hnm => by rw [hnm]⟩

theorem program_deterministic_witness :
    progMain [Char.ofNat 53] = progMain [Char.ofNat 53] :=
  (program_deterministic [Char.ofNat 53] [Char.ofNat 53] rfl).1

/-- C8: for every n with 0 ≤ n ≤ 46, `fibonacci n` is a total iterative
computation whose loop-iteration count is at most n (linear, never
exponential): the instrumented run returns the same value and counts at
most n iterations. -/
theorem fibonacci_linear_time (n : Int) (h0 : 0 ≤ n) (h1 : n ≤ 46) :
    (fibonacciCost n).1 = fibonacci n ∧ (fibonacciCost n).2 ≤ n.toNat := by
  by_cases hle : n ≤ 1
  · refine ⟨?_, ?_⟩ <;> simp [fibonacciCost, fibonacci, if_pos hle]
  · constructor
    · simp [fibonacciCost, fibonacci, if_neg hle, fibIterC_eq]
    · simp only [fibonacciCost, if_neg hle, fibIterC_eq]
      omega

theorem fibonacci_linear_time_witness :
    (fibonacciCost 10).1 = fibonacci 10 ∧ (fibonacciCost 10).2 ≤ (10 : Int).toNat :=
  fibonacci_linear_time 10 (by decide) (by decide)

/-- C9: loop invariant of `fibonacci`: for n ≥ 2, at the start of the
iteration with counter i (2 ≤ i ≤ n) the loop has run i - 2 times, so
the variables satisfy a = F(i-2) and b = F(i-1); the invariant holds on
entry (i = 2 gives (a, b) = (F(0), F(1)) = (0, 1)) and one further
update c = a + b; a = b; b = c carries it to (F(i-1), F(i)). -/
theorem fibonacci_loop_invariant (n i : Nat) (h2 : 2 ≤ i) (hn : i ≤ n) :
    fibIter (i - 2) (0, 1) = ((Nat.fib (i - 2) : Int), (Nat.fib (i - 1) : Int)) ∧
    fibIter (i - 1) (0, 1) = ((Nat.fib (i - 1) : Int), (Nat.fib i : Int)) := by
  have e2 : i - 2 + 1 = i - 1 := by omega
  have e3 : i - 1 + 1 = i := by omega
  constructor
  · rw [fibIter_zero_one (i - 2), e2]
  · rw [fibIter_zero_one (i - 1), e3]

theorem fibonacci_loop_invariant_witness :
    fibIter 1 (0, 1) = ((Nat.fib 1 : Int), (Nat.fib 2 : Int)) :=
  (fibonacci_loop_invariant 5 3 (by decide) (by decide)).1

/-- C10: for every integer n ≤ 1, including every negative n, the guard
`if (n <= 1) return n;` makes `fibonacci` return n unchanged: there is
no internal range re-validation and no error for negative arguments. -/
theorem fibonacci_identity_below_two (n : Int) (h : n ≤ 1) : fibonacci n = n := by
  simp [fibonacci, if_pos h]

theorem fibonacci_identity_below_two_witness : fibonacci (-5) = -5 :=
  fibonacci_identity_below_two (-5) (by decide)

end AiCli
